import Mathlib

/-
Verification of the cardinal-signposts core (generator.py / validators.py).

Shallow embedding conventions:
* A directory tree is a finite tree of directories; each directory holds a
  list of files (name, content) and a list of named subdirectories.  List
  order models filesystem enumeration order (os.walk / iterdir observe some
  fixed order; `sorted` is applied by the tree renderer exactly as in the
  source).
* File content is modeled as its list of lines (the result of splitting the text content over the newline character).  The generator joins lines with
  a newline and the validator splits on a newline; since every generated line
  is newline-free under the validity hypotheses used below, the line-list
  model is faithful.  A substring test against the whole content (the field-in-content test) becomes a per-line substring test, which agrees with
  the joined-string test because the probed field labels contain no newline.
* Python str helpers (startswith, strip, rstrip, split, lower, upper,
  capitalize) are modeled character-by-character over `String.data`; case
  mapping is the ASCII one of `Char.toUpper` / `Char.toLower`.
* `line.split(tag)[1]` is only ever evaluated by the source on a line that
  starts with `tag`; in that case it equals the text following `tag` up to
  the next occurrence of `tag` (or the end), which is what `splitAfterTag`
  computes.
-/

set_option maxHeartbeats 1000000

namespace TacWrite

/-! ## Python-style string helpers -/

def isWS (c : Char) : Bool := c.isWhitespace

/-- Boolean list-prefix test (Python startswith, on char lists). -/
def isPrefixB : List Char → List Char → Bool
  | [], _ => true
  | _ :: _, [] => false
  | a :: as, b :: bs => a == b && isPrefixB as bs

/-- Boolean substring test (Python `sub in s`, on char lists). -/
def isSubChars (p : List Char) : List Char → Bool
  | [] => p.isEmpty
  | c :: rest => isPrefixB p (c :: rest) || isSubChars p rest

def pyStartsWith (s p : String) : Bool := isPrefixB p.data s.data

def pyEndsWith (s p : String) : Bool := isPrefixB p.data.reverse s.data.reverse

def pyContainsSub (s p : String) : Bool := isSubChars p.data s.data

/-- Python str.strip(): drop whitespace from both ends. -/
def stripChars (l : List Char) : List Char :=
  ((l.dropWhile isWS).reverse.dropWhile isWS).reverse

def pyStrip (s : String) : String := ⟨stripChars s.data⟩

/-- Python str.rstrip over the single character slash: drop every trailing slash. -/
def rstripSlashes (s : String) : String :=
  ⟨(s.data.reverse.dropWhile (fun c => c == '/')).reverse⟩

/-- Characters before the first occurrence of `tag` in the list. -/
def takeUntilTag (tag : List Char) : List Char → List Char
  | [] => []
  | c :: rest => if isPrefixB tag (c :: rest) then [] else c :: takeUntilTag tag rest

/-- Python `line.split(tag)[1]` for a line that starts with `tag`:
the text after the leading `tag` up to the next occurrence of `tag`. -/
def splitAfterTag (tag : String) (line : String) : String :=
  ⟨takeUntilTag tag.data (line.data.drop tag.data.length)⟩

def pyLower (s : String) : String := ⟨s.data.map Char.toLower⟩

def pyUpper (s : String) : String := ⟨s.data.map Char.toUpper⟩

/-- Python str.capitalize(): first character uppercased, the rest lowercased. -/
def pyCapitalize (s : String) : String :=
  match s.data with
  | [] => ⟨[]⟩
  | c :: rest => ⟨c.toUpper :: rest.map Char.toLower⟩

/-- Basename of a slash-separated path (pathlib Path.name for a resolved path). -/
def pathBaseName (s : String) : String :=
  ⟨(s.data.reverse.takeWhile (fun c => c ≠ '/')).reverse⟩

/-! ## Filesystem model -/

/-- File content as its list of lines. -/
abbrev Content := List String

/-- Files of one directory, in enumeration order. -/
abbrev Files := List (String × Content)

mutual
inductive DirTree : Type where
  | node : Files → Subs → DirTree
inductive Subs : Type where
  | nil : Subs
  | cons : String → DirTree → Subs → Subs
end

def DirTree.files : DirTree → Files
  | .node fs _ => fs

def DirTree.subs : DirTree → Subs
  | .node _ s => s

def findSub : Subs → String → Option DirTree
  | .nil, _ => none
  | .cons m c r, n => if m == n then some c else findSub r n

/-- Look up the directory at a relative path. -/
def getDir? : DirTree → List String → Option DirTree
  | t, [] => some t
  | t, n :: rest =>
    match findSub t.subs n with
    | none => none
    | some c => getDir? c rest

def findFile (fs : Files) (n : String) : Option Content :=
  (fs.find? (fun f => f.1 == n)).map (fun f => f.2)

/-- Path.write_text: overwrite the file when present, otherwise create it
(a newly created entry appears at the end of the enumeration order). -/
def writeFile (fs : Files) (n : String) (c : Content) : Files :=
  if fs.any (fun f => f.1 == n) then
    fs.map (fun f => if f.1 == n then (n, c) else f)
  else
    fs ++ [(n, c)]

/-! ## Exclusions and naming (generator.py / validators.py) -/

/-- Directory names pruned by create_signposts and validate_signposts:
hidden names plus the literal exclusion list. -/
def keepDir (d : String) : Bool :=
  !(pyStartsWith d ".") &&
    !(["node_modules", "__pycache__", "venv", "env", ".git"].contains d)

/-- Names kept by the tree renderer (_generate_tree): note its literal list
has no ".git" entry; the dot rule covers it. -/
def treeKeep (d : String) : Bool :=
  !(pyStartsWith d ".") && !(["node_modules", "__pycache__", "venv", "env"].contains d)

/-- A filename matching the signpost convention. -/
def isSignpostName (n : String) : Bool :=
  pyStartsWith n "_CARDINAL_" && pyEndsWith n ".txt"

def ROOT_SIGNPOST : String := "_CARDINAL_ROOT.txt"

/-- Marker filename for a directory at relative path parts `rel`. -/
def signpostFilename (rel : List String) : String :=
  "_CARDINAL_" ++ String.intercalate "_" (rel.map pyUpper) ++ ".txt"

/-- str(root / p1 / ... / pn): join path parts onto the root path string. -/
def pathStr (root : String) : List String → String
  | [] => root
  | n :: rest => pathStr (root ++ "/" ++ n) rest

/-- str of a relative PosixPath. -/
def relStr (rel : List String) : String := String.intercalate "/" rel

/-! ## SignpostGenerator configuration -/

structure SignpostGenerator where
  root_path : String
  format : String
  include_rules : Bool
  include_tree : Bool
  custom_rules : List (String × String)

/-! ## Role inference -/

def role_map : List (String × String) :=
  [("src", "Source code"),
   ("source", "Source code"),
   ("lib", "Library code"),
   ("tests", "Test suite"),
   ("test", "Test suite"),
   ("docs", "Documentation"),
   ("documentation", "Documentation"),
   ("examples", "Example code"),
   ("scripts", "Utility scripts"),
   ("config", "Configuration files"),
   ("data", "Data files"),
   ("models", "Data models"),
   ("views", "View templates"),
   ("controllers", "Controller logic"),
   ("routes", "Route definitions"),
   ("middleware", "Middleware components"),
   ("utils", "Utility functions"),
   ("helpers", "Helper functions"),
   ("services", "Service layer"),
   ("api", "API implementation"),
   ("static", "Static assets"),
   ("public", "Public files"),
   ("assets", "Asset files"),
   ("components", "UI components"),
   ("pages", "Page components"),
   ("layouts", "Layout components"),
   ("hooks", "Custom hooks"),
   ("context", "Context providers"),
   ("store", "State management"),
   ("types", "Type definitions"),
   ("interfaces", "Interface definitions"),
   ("constants", "Constants"),
   ("enums", "Enumerations")]

def _infer_directory_role (dirName : String) : String :=
  let n := pyLower dirName
  match role_map.find? (fun kv => kv.1 == n) with
  | some kv => kv.2
  | none => pyCapitalize n ++ " directory"

/-! ## Tree renderer (_generate_tree) -/

def itemsOfSubs : Subs → List (String × Option DirTree)
  | .nil => []
  | .cons n c r => (n, some c) :: itemsOfSubs r

/-- iterdir items of a directory: subdirectories and files with an is-dir flag. -/
def itemsOf : DirTree → List (String × Option DirTree)
  | .node fs subs => itemsOfSubs subs ++ fs.map (fun f => (f.1, none))

/-- sorted key (not is_dir, name): directories first, then lexicographic name. -/
def itemLt (a b : String × Option DirTree) : Bool :=
  let ra : Nat := if a.2.isSome then 0 else 1
  let rb : Nat := if b.2.isSome then 0 else 1
  decide (ra < rb) || (ra == rb && decide (a.1 < b.1))

/-- Stable insertion for insertion sort: x goes before y unless y is
strictly smaller. -/
def insertItem (lt : α → α → Bool) (x : α) : List α → List α
  | [] => [x]
  | y :: ys => if lt y x then y :: insertItem lt x ys else x :: y :: ys

def sortItems (lt : α → α → Bool) : List α → List α
  | [] => []
  | x :: xs => insertItem lt x (sortItems lt xs)

/-- sorted then exclusion-filtered items of a directory. -/
def sortedItems (t : DirTree) : List (String × Option DirTree) :=
  (sortItems itemLt (itemsOf t)).filter (fun i => treeKeep i.1)

/-- One level of build_tree: emit a line per item; children are rendered by
the `child` callback (the next depth level). -/
def buildItemsWith (child : DirTree → String → List String) (pre : String) :
    List (String × Option DirTree) → List String
  | [] => []
  | (n, od) :: rest =>
    let la := rest.isEmpty
    let line := pre ++ (if la then "└── " else "├── ") ++ n ++
      (if od.isSome then "/" else "")
    let childLines :=
      match od with
      | some c => child c (pre ++ (if la then "    " else "│   "))
      | none => []
    line :: (childLines ++ buildItemsWith child pre rest)

/-- build_tree of _generate_tree: `fuel` is the remaining depth budget
(source: recursion depth counter with fixed max_depth 3; fuel n stands for
depth 4 - n, so fuel 0 is the `depth > max_depth` early return). -/
def buildDepth : Nat → DirTree → String → List String
  | 0, _, _ => []
  | fuel + 1, t, pre => buildItemsWith (fun c p => buildDepth fuel c p) pre (sortedItems t)

def _generate_tree (t : DirTree) (rootName : String) : List String :=
  (rootName ++ "/") :: buildDepth 4 t ""

/-! ## Content builders -/

def bannerLine : String := ⟨List.replicate 60 '═'⟩

def rulesLines : List String :=
  ["BEFORE GENERATING CODE:",
   "1. pwd && ls -la",
   "2. cat _CARDINAL_*.txt (signpost in current directory)",
   "3. State absolute path out loud",
   "4. Verify file doesn\x27t already exist",
   "",
   "CONSTITUTIONAL RULES:",
   "- Absolute paths only, never use relative paths",
   "- ONE config location (verify before creating config)",
   "- NO new directories without explicit approval",
   "- Generate ONE file per operation, then STOP",
   "- All imports must use absolute paths",
   "",
   "VIOLATION = HALT IMMEDIATELY",
   ""]

def customLines (g : SignpostGenerator) : List String :=
  if g.custom_rules.isEmpty then []
  else "CUSTOM RULES:" :: g.custom_rules.map (fun kv => "- " ++ kv.1 ++ ": " ++ kv.2) ++ [""]

def rootHeader (g : SignpostGenerator) : List String :=
  [bannerLine,
   "CARDINAL RULES - READ BEFORE ANY OPERATION",
   bannerLine,
   "",
   "ROOT: " ++ g.root_path ++ "/",
   "HERE: " ++ g.root_path ++ "/",
   "ROLE: Project root directory",
   ""]

/-- _generate_root_content, reading the live tree `t` for the optional
directory-structure snapshot. -/
def _generate_root_content (g : SignpostGenerator) (t : DirTree) : List String :=
  rootHeader g ++
    (if g.include_rules then rulesLines else []) ++
    customLines g ++
    (if g.include_tree then
      "DIRECTORY STRUCTURE:" :: _generate_tree t (pathBaseName g.root_path) ++ [""]
    else [])

def _generate_directory_content (g : SignpostGenerator) (dirStr role : String) :
    List String :=
  ["ROOT: " ++ g.root_path ++ "/", "HERE: " ++ dirStr ++ "/", "ROLE: " ++ role]

/-! ## create_signposts -/

mutual
/-- The os.walk pass of create_signposts at the directory with relative path
`rel`: write the marker of this directory unless the depth is 0 or exceeds
max_depth, then recurse into the non-pruned subdirectories. -/
def walkCreate (g : SignpostGenerator) (maxD : Nat) (rel : List String) :
    DirTree → DirTree
  | .node fs subs =>
    let fs' :=
      if rel = [] ∨ maxD < rel.length then fs
      else
        writeFile fs (signpostFilename rel)
          (_generate_directory_content g (pathStr g.root_path rel)
            (_infer_directory_role (rel.getLastD "")))
    DirTree.node fs' (walkCreateSubs g maxD rel subs)
def walkCreateSubs (g : SignpostGenerator) (maxD : Nat) (rel : List String) :
    Subs → Subs
  | .nil => .nil
  | .cons n c rest =>
    .cons n (if keepDir n then walkCreate g maxD (rel ++ [n]) c else c)
      (walkCreateSubs g maxD rel rest)
end

/-- create_signposts: write the root signpost first (content generated from
the tree as it is at call time), then walk. -/
def create_signposts (g : SignpostGenerator) (t : DirTree) (maxD : Nat) : DirTree :=
  walkCreate g maxD []
    (DirTree.node (writeFile t.files ROOT_SIGNPOST (_generate_root_content g t)) t.subs)

/-! ## Validator -/

/-- Missing-field issues for the three required labels. -/
def requiredFieldIssues (content : List String) (relName : String) : List String :=
  (["ROOT:", "HERE:", "ROLE:"].filter
      (fun f => !(content.any (fun l => pyContainsSub l f)))).map
    (fun f => "Missing \x27" ++ f ++ "\x27 in " ++ relName)

/-- Check of one labeled path line: find the first line starting with `tag`,
strip the value and every trailing slash, compare with `expected`. -/
def lineValueIssue (tag label expected relName : String) (content : List String) :
    List String :=
  match content.find? (fun l => pyStartsWith l tag) with
  | none => []
  | some l =>
    let v := rstripSlashes (pyStrip (splitAfterTag tag l))
    if v == expected then []
    else ["Incorrect " ++ label ++ " in " ++ relName ++ ": expected " ++ expected ++
      ", got " ++ v]

/-- _validate_signpost_content: the issue list (the boolean of the source is its
emptiness).  `hereExpected` is str(signpost_path.parent). -/
def _validate_signpost_content (content : List String)
    (root_path hereExpected relName : String) : List String :=
  requiredFieldIssues content relName ++
    lineValueIssue "ROOT:" "ROOT" root_path relName content ++
    lineValueIssue "HERE:" "HERE" hereExpected relName content

/-- The signpost-named files of a directory, in enumeration order. -/
def signpostFiles (fs : Files) : Files :=
  fs.filter (fun f => isSignpostName f.1)

/-- Issues contributed by one non-root directory of the validation walk. -/
def perDirIssues (root_path : String) (fs : Files) (rel : List String) : List String :=
  match signpostFiles fs with
  | [] => ["Missing signpost in: " ++ relStr rel]
  | f :: rest =>
    (if rest.isEmpty then [] else ["Multiple signposts in: " ++ relStr rel]) ++
      _validate_signpost_content f.2 root_path (pathStr root_path rel)
        (relStr rel ++ "/" ++ f.1)

mutual
/-- The os.walk pass of validate_signposts (the root directory itself is
skipped; excluded subdirectories are pruned). -/
def validateWalk (root_path : String) (rel : List String) : DirTree → List String
  | .node fs subs =>
    (if rel = [] then [] else perDirIssues root_path fs rel) ++
      validateSubs root_path rel subs
def validateSubs (root_path : String) (rel : List String) : Subs → List String
  | .nil => []
  | .cons n c rest =>
    (if keepDir n then validateWalk root_path (rel ++ [n]) c else []) ++
      validateSubs root_path rel rest
end

/-- All issues of one validation pass (the early return on a missing root
signpost yields exactly the one issue recorded before returning). -/
def validationIssues (root_path : String) (t : DirTree) : List String :=
  match findFile t.files ROOT_SIGNPOST with
  | none => ["Missing root signpost: " ++ root_path ++ "/" ++ ROOT_SIGNPOST]
  | some c =>
    _validate_signpost_content c root_path root_path ROOT_SIGNPOST ++
      validateWalk root_path [] t

/-- validate_signposts: False immediately when the root signpost is missing,
otherwise True exactly when no issue was collected. -/
def validate_signposts (root_path : String) (t : DirTree) : Bool :=
  match findFile t.files ROOT_SIGNPOST with
  | none => false
  | some c =>
    (_validate_signpost_content c root_path root_path ROOT_SIGNPOST ++
      validateWalk root_path [] t).isEmpty

/-! ## remove -/

mutual
/-- remove(): os.walk with no pruning; delete every signpost-named file,
return the new tree and the count of deleted files. -/
def removeTree : DirTree → DirTree × Nat
  | .node fs subs =>
    let r := removeSubs subs
    (DirTree.node (fs.filter (fun f => !(isSignpostName f.1))) r.1,
      (fs.filter (fun f => isSignpostName f.1)).length + r.2)
def removeSubs : Subs → Subs × Nat
  | .nil => (.nil, 0)
  | .cons n c rest =>
    let rc := removeTree c
    let rr := removeSubs rest
    (.cons n rc.1 rr.1, rc.2 + rr.2)
end

mutual
/-- Number of signpost-named files anywhere in the tree (excluded
directories included). -/
def signpostCount : DirTree → Nat
  | .node fs subs => (fs.filter (fun f => isSignpostName f.1)).length + signpostCountSubs subs
def signpostCountSubs : Subs → Nat
  | .nil => 0
  | .cons _ c rest => signpostCount c + signpostCountSubs rest
end

/-! ## Generator construction (C9) -/

/-- SignpostGenerator.__init__: resolve and record the configuration, then
raise when the root path does not exist.  The world (the filesystem) is
returned unchanged: __init__ performs no write or delete. -/
def generatorInit (world : DirTree) (p : List String) (root_path format : String)
    (include_rules include_tree : Bool) (custom_rules : List (String × String)) :
    DirTree × Except String SignpostGenerator :=
  (world,
    if (getDir? world p).isSome then
      Except.ok ⟨root_path, format, include_rules, include_tree, custom_rules⟩
    else
      Except.error ("Path does not exist: " ++ root_path))

/-! ## Pruning view (for C8) -/

mutual
/-- Drop every excluded subdirectory, recursively. -/
def pruneExcluded : DirTree → DirTree
  | .node fs subs => .node fs (pruneSubs subs)
def pruneSubs : Subs → Subs
  | .nil => .nil
  | .cons n c r =>
    if keepDir n then .cons n (pruneExcluded c) (pruneSubs r) else pruneSubs r
end

/-! ## Validity predicates for trees and path strings -/

/-- A well-formed resolved absolute path string: nonempty, does not start
with whitespace, does not end with a slash, and contains neither a colon nor
a newline. -/
def goodPathChars (l : List Char) : Bool :=
  !l.isEmpty && !(isWS (l.headD ' ')) && (l.reverse.headD ' ' != '/') &&
    l.all (fun c => c != ':' && c != '\n')

/-- A well-formed directory name: nonempty, no colon, newline or slash. -/
def goodNameB (s : String) : Bool :=
  !s.data.isEmpty && s.data.all (fun c => c != ':' && c != '\n' && c != '/')

mutual
def goodTreeB : DirTree → Bool
  | .node _ subs => goodSubsB subs
def goodSubsB : Subs → Bool
  | .nil => true
  | .cons n c r => goodNameB n && goodTreeB c && goodSubsB r
end

mutual
/-- No pre-existing signpost-named file anywhere. -/
def cleanTreeB : DirTree → Bool
  | .node fs subs => fs.all (fun f => !(isSignpostName f.1)) && cleanSubsB subs
def cleanSubsB : Subs → Bool
  | .nil => true
  | .cons _ c r => cleanTreeB c && cleanSubsB r
end

mutual
/-- Depth of the tree: greatest number of path components of any directory. -/
def treeDepth : DirTree → Nat
  | .node _ subs => subsDepth subs
def subsDepth : Subs → Nat
  | .nil => 0
  | .cons _ c r => max (1 + treeDepth c) (subsDepth r)
end

/-- A run of k slashes (used to state the trailing-slash tolerance of the
validator). -/
def slashes (k : Nat) : String := ⟨List.replicate k '/'⟩

/-! ## Concrete instances used by counterexamples and witnesses -/

def gW : SignpostGenerator := ⟨"/r", "txt", true, false, []⟩

def gTreeOn : SignpostGenerator := ⟨"/r", "txt", true, true, []⟩

def tEmpty : DirTree := .node [] .nil

def tSrc : DirTree := .node [] (.cons "src" (.node [] .nil) .nil)

def tSrcModels : DirTree :=
  .node [] (.cons "src" (.node [] (.cons "models" (.node [] .nil) .nil)) .nil)

def tGit : DirTree :=
  .node [] (.cons ".git" (.node [("_CARDINAL_X.txt", [])] .nil) .nil)

def tSrcGit : DirTree :=
  .node [] (.cons "src" (.node [] (.cons ".git" (.node [("a.txt", ["x"])] .nil) .nil)) .nil)

/-! # Lemmas -/

/-! ## String plumbing -/

theorem dataAppend (a b : String) : (a ++ b).data = a.data ++ b.data := by
  cases a
  cases b
  rfl

theorem strExt {a b : String} (h : a.data = b.data) : a = b := by
  cases a
  cases b
  exact congrArg String.mk h

theorem strAppend_assoc (a b c : String) : a ++ b ++ c = a ++ (b ++ c) := by
  apply strExt
  simp [dataAppend]

theorem isPrefixB_append_self (p r : List Char) : isPrefixB p (p ++ r) = true := by
  induction p with
  | nil => rfl
  | cons a as ih => simp [isPrefixB, ih]

theorem mem_of_isPrefixB {p s : List Char} (h : isPrefixB p s = true) :
    ∀ c ∈ p, c ∈ s := by
  induction p generalizing s with
  | nil => simp
  | cons a as ih =>
    cases s with
    | nil => simp [isPrefixB] at h
    | cons b bs =>
      simp only [isPrefixB, Bool.and_eq_true, beq_iff_eq] at h
      intro c hc
      rcases List.mem_cons.mp hc with h1 | h2
      · exact h1 ▸ h.1 ▸ List.mem_cons_self b bs
      · exact List.mem_cons_of_mem b (ih h.2 c h2)

theorem takeUntilTag_eq_self {tag v : List Char} {c : Char}
    (hct : c ∈ tag) (hcv : c ∉ v) : takeUntilTag tag v = v := by
  induction v with
  | nil => rfl
  | cons a rest ih =>
    have hpre : isPrefixB tag (a :: rest) = false := by
      cases hp : isPrefixB tag (a :: rest) with
      | false => rfl
      | true => exact absurd (mem_of_isPrefixB hp c hct) hcv
    have hrest : c ∉ rest := fun hr => hcv (List.mem_cons_of_mem a hr)
    simp [takeUntilTag, hpre, ih hrest]

theorem startsWith_tag_pre (tag pre x : String) (r : List Char)
    (h : pre.data = tag.data ++ r) : pyStartsWith (pre ++ x) tag = true := by
  unfold pyStartsWith
  rw [dataAppend, h, List.append_assoc]
  exact isPrefixB_append_self _ _

theorem startsWith_false_of_headD {s t : String} (htne : t.data ≠ [])
    (h : t.data.headD ' ' ≠ s.data.headD ' ') : pyStartsWith s t = false := by
  unfold pyStartsWith
  cases ht : t.data with
  | nil => exact absurd ht htne
  | cons b bs =>
    cases hs : s.data with
    | nil => rfl
    | cons a as =>
      rw [ht, hs] at h
      simp only [List.headD_cons] at h
      have hba : (b == a) = false := by
        simp only [beq_eq_false_iff_ne]
        exact h
      simp [isPrefixB, hba]

theorem headD_pre {pre : String} (x : String) {c : Char} {l : List Char}
    (h : pre.data = c :: l) : (pre ++ x).data.headD ' ' = c := by
  rw [dataAppend, h]
  rfl

theorem containsSub_of_startsWith {s t : String} (h : pyStartsWith s t = true) :
    pyContainsSub s t = true := by
  unfold pyStartsWith at h
  unfold pyContainsSub
  cases hs : s.data with
  | nil =>
    rw [hs] at h
    cases ht : t.data with
    | nil => simp [isSubChars]
    | cons b bs => rw [ht] at h; simp [isPrefixB] at h
  | cons a as =>
    rw [hs] at h
    simp [isSubChars, h]

theorem dataMk (l : List Char) : (⟨l⟩ : String).data = l := rfl

theorem goodPath_parts {l : List Char} (h : goodPathChars l = true) :
    l ≠ [] ∧ isWS (l.headD ' ') = false ∧ l.reverse.headD ' ' ≠ '/' ∧
      ∀ c ∈ l, c ≠ ':' ∧ c ≠ '\n' := by
  unfold goodPathChars at h
  simp only [Bool.and_eq_true, Bool.not_eq_true', List.all_eq_true, bne_iff_ne,
    ne_eq] at h
  obtain ⟨⟨⟨hne, hhead⟩, hlast⟩, hall⟩ := h
  refine ⟨?_, hhead, hlast, ?_⟩
  · intro he
    rw [he] at hne
    simp at hne
  · intro c hc
    have := hall c hc
    simp only [Bool.and_eq_true, bne_iff_ne, ne_eq] at this
    exact this

/-- The value pipeline of _validate_signpost_content applied to a generated
line `tag ++ " " ++ s ++ "/"` recovers the path `s`. -/
theorem fieldValue_extract (tag s : String) (hc : ':' ∈ tag.data)
    (hs : goodPathChars s.data = true) :
    rstripSlashes (pyStrip (splitAfterTag tag (tag ++ " " ++ s ++ "/"))) = s := by
  obtain ⟨hne, hhead, hlast, hchars⟩ := goodPath_parts hs
  have hsp : (" ").data = [' '] := rfl
  have hsl : ("/").data = ['/'] := rfl
  have hdata : (tag ++ " " ++ s ++ "/").data = tag.data ++ (' ' :: (s.data ++ ['/'])) := by
    rw [dataAppend, dataAppend, dataAppend, hsp, hsl]
    simp [List.append_assoc]
  have hnotin : ':' ∉ (' ' :: (s.data ++ ['/'])) := by
    intro hmem
    rcases List.mem_cons.mp hmem with h1 | h2
    · exact absurd h1 (by decide)
    · rcases List.mem_append.mp h2 with h3 | h4
      · exact absurd rfl (hchars ':' h3).1
      · simp at h4
  have hwsp : isWS ' ' = true := by decide
  have hwsl : isWS '/' = false := by decide
  cases hsd : s.data with
  | nil => exact absurd hsd hne
  | cons c0 srest =>
  have hc0 : isWS c0 = false := by
    rw [hsd] at hhead
    simpa using hhead
  have hdw : List.dropWhile isWS (' ' :: (s.data ++ ['/'])) = s.data ++ ['/'] := by
    rw [List.dropWhile_cons, hwsp]
    simp only [if_true]
    rw [hsd, List.cons_append, List.dropWhile_cons, hc0]
    simp
  have hdw2 : List.dropWhile isWS ((s.data ++ ['/']).reverse) = (s.data ++ ['/']).reverse := by
    rw [List.reverse_append]
    simp only [List.reverse_cons, List.reverse_nil, List.nil_append, List.cons_append,
      List.singleton_append]
    rw [List.dropWhile_cons, hwsl]
    simp
  have hstrip : stripChars (' ' :: (s.data ++ ['/'])) = s.data ++ ['/'] := by
    unfold stripChars
    rw [hdw, hdw2, List.reverse_reverse]
  have hdrop : List.dropWhile (fun c => c == '/') ((s.data ++ ['/']).reverse) =
      s.data.reverse := by
    rw [List.reverse_append]
    simp only [List.reverse_cons, List.reverse_nil, List.nil_append, List.singleton_append]
    rw [List.dropWhile_cons]
    simp only [beq_self_eq_true, if_true]
    cases hrev : s.data.reverse with
    | nil => simp
    | cons d rs =>
      have hd : (d == '/') = false := by
        rw [hrev] at hlast
        simp only [List.headD_cons] at hlast
        simpa [beq_eq_false_iff_ne] using hlast
      rw [List.dropWhile_cons, hd]
      simp
  apply strExt
  show ((stripChars (takeUntilTag tag.data
      ((tag ++ " " ++ s ++ "/").data.drop tag.data.length))).reverse.dropWhile
      (fun c => c == '/')).reverse = s.data
  rw [hdata, List.drop_left, takeUntilTag_eq_self hc hnotin, hstrip, hdrop,
    List.reverse_reverse]

/-! ## Field-line facts -/

theorem startsWith_ROOT (x : String) : pyStartsWith ("ROOT: " ++ x) "ROOT:" = true :=
  startsWith_tag_pre "ROOT:" "ROOT: " x [' '] rfl

theorem startsWith_HERE (x : String) : pyStartsWith ("HERE: " ++ x) "HERE:" = true :=
  startsWith_tag_pre "HERE:" "HERE: " x [' '] rfl

theorem startsWith_ROLE (x : String) : pyStartsWith ("ROLE: " ++ x) "ROLE:" = true :=
  startsWith_tag_pre "ROLE:" "ROLE: " x [' '] rfl

theorem root_not_HERE (x : String) : pyStartsWith ("ROOT: " ++ x) "HERE:" = false := by
  have h1 : ("ROOT: " ++ x).data.headD ' ' = 'R' := headD_pre x rfl
  apply startsWith_false_of_headD (by decide)
  rw [h1]
  decide

theorem extract_ROOT (s : String) (hs : goodPathChars s.data = true) :
    rstripSlashes (pyStrip (splitAfterTag "ROOT:" ("ROOT: " ++ s ++ "/"))) = s := by
  have h := fieldValue_extract "ROOT:" s (by decide) hs
  rwa [show ("ROOT:" ++ " " : String) = "ROOT: " from rfl] at h

theorem extract_HERE (s : String) (hs : goodPathChars s.data = true) :
    rstripSlashes (pyStrip (splitAfterTag "HERE:" ("HERE: " ++ s ++ "/"))) = s := by
  have h := fieldValue_extract "HERE:" s (by decide) hs
  rwa [show ("HERE:" ++ " " : String) = "HERE: " from rfl] at h

/-! ## Generated marker contents pass the content check -/

theorem dir_marker_content_ok (g : SignpostGenerator) (D role relName : String)
    (hr : goodPathChars g.root_path.data = true)
    (hD : goodPathChars D.data = true) :
    _validate_signpost_content (_generate_directory_content g D role)
      g.root_path D relName = [] := by
  have f1 : pyStartsWith ("ROOT: " ++ g.root_path ++ "/") "ROOT:" = true := by
    rw [strAppend_assoc]; exact startsWith_ROOT _
  have f2 : pyStartsWith ("ROOT: " ++ g.root_path ++ "/") "HERE:" = false := by
    rw [strAppend_assoc]; exact root_not_HERE _
  have f3 : pyStartsWith ("HERE: " ++ D ++ "/") "HERE:" = true := by
    rw [strAppend_assoc]; exact startsWith_HERE _
  have c1 : pyContainsSub ("ROOT: " ++ g.root_path ++ "/") "ROOT:" = true :=
    containsSub_of_startsWith f1
  have c2 : pyContainsSub ("HERE: " ++ D ++ "/") "HERE:" = true :=
    containsSub_of_startsWith f3
  have c3 : pyContainsSub ("ROLE: " ++ role) "ROLE:" = true :=
    containsSub_of_startsWith (startsWith_ROLE _)
  have hv1 : rstripSlashes (pyStrip (splitAfterTag "ROOT:"
      ("ROOT: " ++ g.root_path ++ "/"))) = g.root_path := by
    rw [strAppend_assoc]; exact extract_ROOT _ hr
  have hv2 : rstripSlashes (pyStrip (splitAfterTag "HERE:" ("HERE: " ++ D ++ "/"))) = D := by
    rw [strAppend_assoc]; exact extract_HERE _ hD
  unfold _validate_signpost_content _generate_directory_content
  have hreq : requiredFieldIssues
      ["ROOT: " ++ g.root_path ++ "/", "HERE: " ++ D ++ "/", "ROLE: " ++ role] relName = [] := by
    unfold requiredFieldIssues
    simp [c1, c2, c3]
  have hrootv : lineValueIssue "ROOT:" "ROOT" g.root_path relName
      ["ROOT: " ++ g.root_path ++ "/", "HERE: " ++ D ++ "/", "ROLE: " ++ role] = [] := by
    unfold lineValueIssue
    simp only [List.find?, f1]
    rw [hv1]
    simp
  have hherev : lineValueIssue "HERE:" "HERE" D relName
      ["ROOT: " ++ g.root_path ++ "/", "HERE: " ++ D ++ "/", "ROLE: " ++ role] = [] := by
    unfold lineValueIssue
    simp only [List.find?, f2, f3]
    rw [hv2]
    simp
  rw [hreq, hrootv, hherev]
  rfl

theorem root_marker_content_ok (g : SignpostGenerator) (t : DirTree) (relName : String)
    (hr : goodPathChars g.root_path.data = true) :
    _validate_signpost_content (_generate_root_content g t)
      g.root_path g.root_path relName = [] := by
  have f1 : pyStartsWith ("ROOT: " ++ g.root_path ++ "/") "ROOT:" = true := by
    rw [strAppend_assoc]; exact startsWith_ROOT _
  have f2 : pyStartsWith ("ROOT: " ++ g.root_path ++ "/") "HERE:" = false := by
    rw [strAppend_assoc]; exact root_not_HERE _
  have f3 : pyStartsWith ("HERE: " ++ g.root_path ++ "/") "HERE:" = true := by
    rw [strAppend_assoc]; exact startsWith_HERE _
  have c1 : pyContainsSub ("ROOT: " ++ g.root_path ++ "/") "ROOT:" = true :=
    containsSub_of_startsWith f1
  have c2 : pyContainsSub ("HERE: " ++ g.root_path ++ "/") "HERE:" = true :=
    containsSub_of_startsWith f3
  have c3 : pyContainsSub ("ROLE: Project root directory") "ROLE:" = true := by decide
  have n1r : pyStartsWith bannerLine "ROOT:" = false := by decide
  have n2r : pyStartsWith "CARDINAL RULES - READ BEFORE ANY OPERATION" "ROOT:" = false := by
    decide
  have n3r : pyStartsWith "" "ROOT:" = false := by decide
  have n1h : pyStartsWith bannerLine "HERE:" = false := by decide
  have n2h : pyStartsWith "CARDINAL RULES - READ BEFORE ANY OPERATION" "HERE:" = false := by
    decide
  have n3h : pyStartsWith "" "HERE:" = false := by decide
  have hv1 : rstripSlashes (pyStrip (splitAfterTag "ROOT:"
      ("ROOT: " ++ g.root_path ++ "/"))) = g.root_path := by
    rw [strAppend_assoc]; exact extract_ROOT _ hr
  have hv2 : rstripSlashes (pyStrip (splitAfterTag "HERE:"
      ("HERE: " ++ g.root_path ++ "/"))) = g.root_path := by
    rw [strAppend_assoc]; exact extract_HERE _ hr
  have hreq : ∀ rest : List String, requiredFieldIssues (bannerLine ::
      "CARDINAL RULES - READ BEFORE ANY OPERATION" :: bannerLine :: "" ::
      ("ROOT: " ++ g.root_path ++ "/") :: ("HERE: " ++ g.root_path ++ "/") ::
      "ROLE: Project root directory" :: "" :: rest) relName = [] := by
    intro rest
    unfold requiredFieldIssues
    simp [c1, c2, c3]
  have hrootv : ∀ rest : List String, lineValueIssue "ROOT:" "ROOT" g.root_path relName
      (bannerLine :: "CARDINAL RULES - READ BEFORE ANY OPERATION" :: bannerLine :: "" ::
        ("ROOT: " ++ g.root_path ++ "/") :: rest) = [] := by
    intro rest
    unfold lineValueIssue
    simp only [List.find?, n1r, n2r, n3r, f1]
    rw [hv1]
    simp
  have hherev : ∀ rest : List String, lineValueIssue "HERE:" "HERE" g.root_path relName
      (bannerLine :: "CARDINAL RULES - READ BEFORE ANY OPERATION" :: bannerLine :: "" ::
        ("ROOT: " ++ g.root_path ++ "/") :: ("HERE: " ++ g.root_path ++ "/") :: rest) = [] := by
    intro rest
    unfold lineValueIssue
    simp only [List.find?, n1h, n2h, n3h, f2, f3]
    rw [hv2]
    simp
  unfold _validate_signpost_content _generate_root_content rootHeader
  simp only [List.cons_append, List.nil_append]
  rw [hreq, hrootv, hherev]
  rfl

/-! ## writeFile / findFile / signpostFiles -/

theorem any_name_false {fs : Files} {n : String}
    (hclean : fs.all (fun f => !(isSignpostName f.1)) = true)
    (hn : isSignpostName n = true) : fs.any (fun f => f.1 == n) = false := by
  rw [List.any_eq_false]
  intro f hf hfn
  rw [List.all_eq_true] at hclean
  have h2 := hclean f hf
  rw [Bool.not_eq_true'] at h2
  have hfe : f.1 = n := by simpa using hfn
  rw [hfe, hn] at h2
  simp at h2

theorem writeFile_append {fs : Files} {n : String} (c : Content)
    (h : fs.any (fun f => f.1 == n) = false) :
    writeFile fs n c = fs ++ [(n, c)] := by
  simp [writeFile, h]

theorem signpostFiles_writeFile {fs : Files} {n : String} (c : Content)
    (hclean : fs.all (fun f => !(isSignpostName f.1)) = true)
    (hn : isSignpostName n = true) :
    signpostFiles (writeFile fs n c) = [(n, c)] := by
  rw [writeFile_append c (any_name_false hclean hn)]
  unfold signpostFiles
  rw [List.filter_append]
  have h1 : fs.filter (fun f => isSignpostName f.1) = [] := by
    rw [List.filter_eq_nil_iff]
    intro f hf
    rw [List.all_eq_true] at hclean
    have := hclean f hf
    simp only [Bool.not_eq_true'] at this
    simp [this]
  rw [h1]
  simp [hn]

theorem find?_map_replace (fs : Files) (n : String) (c : Content)
    (h : fs.any (fun f => f.1 == n) = true) :
    (fs.map (fun f => if f.1 == n then (n, c) else f)).find? (fun f => f.1 == n) =
      some (n, c) := by
  induction fs with
  | nil => simp at h
  | cons f r ih =>
    by_cases hf : (f.1 == n) = true
    · simp [List.find?, hf]
    · have hr : r.any (fun f => f.1 == n) = true := by
        simp only [List.any_cons, hf, Bool.false_or] at h
        exact h
      simp only [List.map_cons, hf, if_false]
      rw [List.find?_cons_of_neg _ (by simp [hf])]
      exact ih hr

theorem find?_append_none {α : Type} {l₁ l₂ : List α} {p : α → Bool}
    (h : l₁.find? p = none) : (l₁ ++ l₂).find? p = l₂.find? p := by
  induction l₁ with
  | nil => simp
  | cons a r ih =>
    rw [List.find?_eq_none] at h
    have ha : p a = false := by
      have := h a (List.mem_cons_self a r)
      simpa using this
    rw [List.cons_append, List.find?_cons_of_neg _ (by simp [ha])]
    apply ih
    rw [List.find?_eq_none]
    intro x hx
    exact h x (List.mem_cons_of_mem a hx)

theorem findFile_writeFile (fs : Files) (n : String) (c : Content) :
    findFile (writeFile fs n c) n = some c := by
  unfold findFile
  by_cases h : fs.any (fun f => f.1 == n) = true
  · unfold writeFile
    simp only [h, if_true]
    rw [find?_map_replace fs n c h]
    rfl
  · have h' : fs.any (fun f => f.1 == n) = false := by
      cases hb : fs.any (fun f => f.1 == n) with
      | false => rfl
      | true => exact absurd hb h
    rw [writeFile_append c h']
    have hnone : fs.find? (fun f => f.1 == n) = none := by
      rw [List.find?_eq_none]
      rw [List.any_eq_false] at h'
      exact h'
    rw [find?_append_none hnone]
    simp [List.find?]

/-! ## Validity of composed path strings -/

theorem goodName_parts {s : String} (h : goodNameB s = true) :
    s.data ≠ [] ∧ ∀ c ∈ s.data, c ≠ ':' ∧ c ≠ '\n' ∧ c ≠ '/' := by
  unfold goodNameB at h
  simp only [Bool.and_eq_true, Bool.not_eq_true', List.all_eq_true, bne_iff_ne, ne_eq] at h
  obtain ⟨hne, hall⟩ := h
  refine ⟨?_, ?_⟩
  · intro he
    rw [he] at hne
    simp at hne
  · intro c hc
    have := hall c hc
    simp only [Bool.and_eq_true, bne_iff_ne, ne_eq] at this
    exact ⟨this.1.1, this.1.2, this.2⟩

theorem goodPath_build {l : List Char} (h1 : l ≠ []) (h2 : isWS (l.headD ' ') = false)
    (h3 : l.reverse.headD ' ' ≠ '/') (h4 : ∀ c ∈ l, c ≠ ':' ∧ c ≠ '\n') :
    goodPathChars l = true := by
  unfold goodPathChars
  simp only [Bool.and_eq_true, Bool.not_eq_true', List.all_eq_true, bne_iff_ne, ne_eq]
  refine ⟨⟨⟨?_, h2⟩, h3⟩, ?_⟩
  · cases l with
    | nil => exact absurd rfl h1
    | cons a r => rfl
  · intro c hc
    have := h4 c hc
    simp [this.1, this.2]

theorem reverse_headD_mem {l : List Char} (h : l ≠ []) (d : Char) :
    l.reverse.headD d ∈ l := by
  cases hrev : l.reverse with
  | nil => exact absurd (List.reverse_eq_nil_iff.mp hrev) h
  | cons x xs =>
    simp only [List.headD_cons]
    have hx : x ∈ l.reverse := by
      rw [hrev]
      exact List.mem_cons_self _ _
    exact List.mem_reverse.mp hx

theorem headD_append_left {l₁ l₂ : List Char} (h : l₁ ≠ []) (d : Char) :
    (l₁ ++ l₂).headD d = l₁.headD d := by
  cases l₁ with
  | nil => exact absurd rfl h
  | cons a r => rfl

theorem goodPath_step {root n : String} (hr : goodPathChars root.data = true)
    (hn : goodNameB n = true) : goodPathChars (root ++ "/" ++ n).data = true := by
  obtain ⟨hrne, hrhead, hrlast, hrchars⟩ := goodPath_parts hr
  obtain ⟨hnne, hnchars⟩ := goodName_parts hn
  have hd : (root ++ "/" ++ n).data = root.data ++ ('/' :: n.data) := by
    rw [dataAppend, dataAppend]
    show (root.data ++ ['/']) ++ n.data = _
    simp
  rw [hd]
  apply goodPath_build
  · intro he
    exact hrne (List.append_eq_nil.mp he).1
  · rw [headD_append_left hrne]
    exact hrhead
  · rw [List.reverse_append]
    have h1 : ('/' :: n.data).reverse = n.data.reverse ++ ['/'] := by simp
    rw [h1]
    have h2 : n.data.reverse ≠ [] := by
      intro he
      exact hnne (List.reverse_eq_nil_iff.mp he)
    rw [List.append_assoc, headD_append_left h2]
    have hm := reverse_headD_mem hnne ' '
    exact (hnchars _ hm).2.2
  · intro c hc
    rcases List.mem_append.mp hc with h1 | h2
    · exact hrchars c h1
    · rcases List.mem_cons.mp h2 with h3 | h4
      · subst h3
        exact ⟨by decide, by decide⟩
      · exact ⟨(hnchars c h4).1, (hnchars c h4).2.1⟩

theorem pathStr_good (root : String) (rel : List String)
    (hr : goodPathChars root.data = true) (hrel : rel.all goodNameB = true) :
    goodPathChars (pathStr root rel).data = true := by
  induction rel generalizing root with
  | nil => exact hr
  | cons n rest ih =>
    simp only [List.all_cons, Bool.and_eq_true] at hrel
    rw [pathStr]
    exact ih (root ++ "/" ++ n) (goodPath_step hr hrel.1) hrel.2

/-! ## Generated marker filenames match the convention -/

theorem endsWith_txt (x : String) : pyEndsWith (x ++ ".txt") ".txt" = true := by
  unfold pyEndsWith
  rw [dataAppend, List.reverse_append]
  exact isPrefixB_append_self _ _

theorem signpostFilename_matches (rel : List String) :
    isSignpostName (signpostFilename rel) = true := by
  unfold isSignpostName signpostFilename
  have h1 : pyStartsWith
      ("_CARDINAL_" ++ String.intercalate "_" (rel.map pyUpper) ++ ".txt")
      "_CARDINAL_" = true := by
    rw [strAppend_assoc]
    exact startsWith_tag_pre "_CARDINAL_" "_CARDINAL_" _ [] (by simp)
  have h2 : pyEndsWith
      ("_CARDINAL_" ++ String.intercalate "_" (rel.map pyUpper) ++ ".txt")
      ".txt" = true := endsWith_txt _
  simp [h1, h2]

theorem rootSignpost_matches : isSignpostName ROOT_SIGNPOST = true := by decide

/-! ## The created marker of a directory passes its validation -/

theorem perDir_created (g : SignpostGenerator) (fs : Files) (rel : List String)
    (hr : goodPathChars g.root_path.data = true)
    (hclean : fs.all (fun f => !(isSignpostName f.1)) = true)
    (hrel : rel.all goodNameB = true) :
    perDirIssues g.root_path
      (writeFile fs (signpostFilename rel)
        (_generate_directory_content g (pathStr g.root_path rel)
          (_infer_directory_role (rel.getLastD "")))) rel = [] := by
  unfold perDirIssues
  rw [signpostFiles_writeFile _ hclean (signpostFilename_matches rel)]
  simp only [List.isEmpty_nil, if_true, List.nil_append]
  rw [dir_marker_content_ok g _ _ _ hr (pathStr_good _ _ hr hrel)]

/-! ## Create-then-validate over the walk -/

mutual
theorem cv_tree (g : SignpostGenerator) (maxD : Nat) (t : DirTree) (rel : List String)
    (hr : goodPathChars g.root_path.data = true)
    (hg : goodTreeB t = true) (hc : cleanTreeB t = true)
    (hrel : rel.all goodNameB = true) (hne : rel ≠ [])
    (hd : rel.length + treeDepth t ≤ maxD) :
    validateWalk g.root_path rel (walkCreate g maxD rel t) = [] := by
  cases t with
  | node fs subs =>
    simp only [goodTreeB] at hg
    simp only [cleanTreeB, Bool.and_eq_true] at hc
    simp only [treeDepth] at hd
    have hlen : rel.length ≤ maxD := by omega
    have hcond : ¬(rel = [] ∨ maxD < rel.length) := by
      push_neg
      exact ⟨hne, by omega⟩
    simp only [walkCreate]
    rw [if_neg hcond]
    simp only [validateWalk]
    rw [if_neg hne]
    rw [perDir_created g fs rel hr hc.1 hrel]
    rw [cv_subs g maxD subs rel hr hg hc.2 hrel (by omega)]
    rfl
theorem cv_subs (g : SignpostGenerator) (maxD : Nat) (subs : Subs) (rel : List String)
    (hr : goodPathChars g.root_path.data = true)
    (hg : goodSubsB subs = true) (hc : cleanSubsB subs = true)
    (hrel : rel.all goodNameB = true)
    (hd : rel.length + subsDepth subs ≤ maxD) :
    validateSubs g.root_path rel (walkCreateSubs g maxD rel subs) = [] := by
  cases subs with
  | nil => simp [walkCreateSubs, validateSubs]
  | cons n c rest =>
    simp only [goodSubsB, Bool.and_eq_true] at hg
    obtain ⟨⟨hgn, hgc⟩, hgr⟩ := hg
    simp only [cleanSubsB, Bool.and_eq_true] at hc
    obtain ⟨hcc, hcr⟩ := hc
    simp only [subsDepth] at hd
    have hmax1 : 1 + treeDepth c ≤ max (1 + treeDepth c) (subsDepth rest) :=
      Nat.le_max_left _ _
    have hmax2 : subsDepth rest ≤ max (1 + treeDepth c) (subsDepth rest) :=
      Nat.le_max_right _ _
    simp only [walkCreateSubs, validateSubs]
    by_cases hk : keepDir n = true
    · rw [if_pos hk, if_pos hk]
      have hrel' : (rel ++ [n]).all goodNameB = true := by
        rw [List.all_append]
        simp [hrel, hgn]
      have hd' : (rel ++ [n]).length + treeDepth c ≤ maxD := by
        rw [List.length_append]
        simp only [List.length_singleton]
        omega
      rw [cv_tree g maxD c (rel ++ [n]) hr hgc hcc hrel' (by simp) hd']
      rw [cv_subs g maxD rest rel hr hgr hcr hrel (by omega)]
      rfl
    · have hk' : keepDir n = false := by
        cases hb : keepDir n with
        | false => rfl
        | true => exact absurd hb hk
      rw [if_neg (by simp [hk'])]
      rw [cv_subs g maxD rest rel hr hgr hcr hrel (by omega)]
      rfl
end

/-! ## Unfolding helpers for the walks -/

theorem walkCreate_node (g : SignpostGenerator) (maxD : Nat) (rel : List String)
    (fs : Files) (subs : Subs) :
    walkCreate g maxD rel (.node fs subs) = .node
      (if rel = [] ∨ maxD < rel.length then fs
       else writeFile fs (signpostFilename rel)
        (_generate_directory_content g (pathStr g.root_path rel)
          (_infer_directory_role (rel.getLastD "")))) (walkCreateSubs g maxD rel subs) := by
  simp only [walkCreate]

theorem create_eq (g : SignpostGenerator) (fs : Files) (subs : Subs) (maxD : Nat) :
    create_signposts g (.node fs subs) maxD = .node
      (writeFile fs ROOT_SIGNPOST (_generate_root_content g (.node fs subs)))
      (walkCreateSubs g maxD [] subs) := by
  unfold create_signposts
  simp only [DirTree.files, DirTree.subs]
  rw [walkCreate_node, if_pos (Or.inl rfl)]

theorem create_files (g : SignpostGenerator) (t : DirTree) (maxD : Nat) :
    (create_signposts g t maxD).files =
      writeFile t.files ROOT_SIGNPOST (_generate_root_content g t) := by
  cases t with
  | node fs subs =>
    rw [create_eq]
    rfl

theorem validate_eq_of_found {root : String} {t : DirTree} {c : Content}
    (h : findFile t.files ROOT_SIGNPOST = some c) :
    validate_signposts root t =
      (_validate_signpost_content c root root ROOT_SIGNPOST ++
        validateWalk root [] t).isEmpty := by
  unfold validate_signposts
  rw [h]

/-! ## getDir? and the create walk -/

theorem getDir?_node_cons_eq (fs : Files) (subs : Subs) (n : String)
    (rest : List String) :
    getDir? (.node fs subs) (n :: rest) =
      (findSub subs n).bind (fun c => getDir? c rest) := by
  simp only [getDir?, DirTree.subs]
  cases findSub subs n <;> rfl

theorem getDir?_append (t : DirTree) (p q : List String) :
    getDir? t (p ++ q) = (getDir? t p).bind (fun d => getDir? d q) := by
  induction p generalizing t with
  | nil => simp [getDir?]
  | cons n rest ih =>
    cases t with
    | node fs subs =>
      rw [List.cons_append, getDir?_node_cons_eq, getDir?_node_cons_eq]
      cases findSub subs n with
      | none => rfl
      | some c => simp [ih]

theorem findSub_walkCreateSubs (g : SignpostGenerator) (maxD : Nat)
    (rel : List String) (subs : Subs) (n : String) :
    findSub (walkCreateSubs g maxD rel subs) n =
      (findSub subs n).map
        (fun c => if keepDir n then walkCreate g maxD (rel ++ [n]) c else c) := by
  cases subs with
  | nil => simp [walkCreateSubs, findSub]
  | cons m c rest =>
    simp only [walkCreateSubs, findSub]
    by_cases hm : (m == n) = true
    · have hmn : m = n := by simpa using hm
      subst hmn
      simp [hm]
    · have hm' : (m == n) = false := by
        cases hb : (m == n) with
        | false => rfl
        | true => exact absurd hb hm
      simp [hm', findSub_walkCreateSubs g maxD rel rest n]

theorem getDir?_walkCreate (g : SignpostGenerator) (maxD : Nat) (p : List String) :
    ∀ (t : DirTree) (rel : List String), p.all keepDir = true →
      getDir? (walkCreate g maxD rel t) p =
        (getDir? t p).map (fun d => walkCreate g maxD (rel ++ p) d) := by
  induction p with
  | nil =>
    intro t rel _
    simp [getDir?]
  | cons n rest ih =>
    intro t rel hp
    simp only [List.all_cons, Bool.and_eq_true] at hp
    cases t with
    | node fs subs =>
      rw [walkCreate_node, getDir?_node_cons_eq, getDir?_node_cons_eq,
        findSub_walkCreateSubs]
      cases findSub subs n with
      | none => rfl
      | some c =>
        simp only [hp.1, if_true, Option.map_some', Option.some_bind]
        rw [ih c (rel ++ [n]) hp.2]
        cases getDir? c rest <;> simp [List.append_assoc]

theorem getDir?_create (g : SignpostGenerator) (t : DirTree) (maxD : Nat)
    (n : String) (p : List String) (hp : (n :: p).all keepDir = true) :
    getDir? (create_signposts g t maxD) (n :: p) =
      (getDir? t (n :: p)).map (fun d => walkCreate g maxD (n :: p) d) := by
  cases t with
  | node fs subs =>
    rw [create_eq]
    have h := getDir?_walkCreate g maxD (n :: p) (.node fs subs) [] hp
    rw [List.nil_append] at h
    rw [← h]
    rw [walkCreate_node, if_pos (Or.inl rfl)]
    rw [getDir?_node_cons_eq, getDir?_node_cons_eq]

/-! ## Idempotence machinery (C3) -/

theorem replace_entry_idem (n : String) (c : Content) (f : String × Content) :
    (if (if f.1 == n then (n, c) else f).1 == n then (n, c)
     else (if f.1 == n then (n, c) else f)) = (if f.1 == n then (n, c) else f) := by
  by_cases hfn : (f.1 == n) = true
  · simp only [hfn, if_true]
    simp
  · have hfn' : (f.1 == n) = false := by
      cases hb : (f.1 == n) with
      | false => rfl
      | true => exact absurd hb hfn
    simp only [hfn', if_false]
    simp [hfn']

theorem writeFile_writeFile_same (fs : Files) (n : String) (c : Content) :
    writeFile (writeFile fs n c) n c = writeFile fs n c := by
  by_cases h : fs.any (fun f => f.1 == n) = true
  · have hw : writeFile fs n c = fs.map (fun f => if f.1 == n then (n, c) else f) := by
      unfold writeFile
      rw [if_pos h]
    have h2 : (fs.map (fun f => if f.1 == n then (n, c) else f)).any
        (fun f => f.1 == n) = true := by
      rw [List.any_eq_true] at h ⊢
      obtain ⟨f, hf, hfn⟩ := h
      refine ⟨if f.1 == n then (n, c) else f, List.mem_map_of_mem _ hf, ?_⟩
      simp only [hfn, if_true]
      simp
    have hw2 : writeFile (fs.map (fun f => if f.1 == n then (n, c) else f)) n c =
        (fs.map (fun f => if f.1 == n then (n, c) else f)).map
          (fun f => if f.1 == n then (n, c) else f) := by
      unfold writeFile
      rw [if_pos h2]
    rw [hw, hw2, List.map_map]
    apply List.map_congr_left
    intro f _
    exact replace_entry_idem n c f
  · have h' : fs.any (fun f => f.1 == n) = false := by
      cases hb : fs.any (fun f => f.1 == n) with
      | false => rfl
      | true => exact absurd hb h
    rw [writeFile_append c h']
    have h2 : (fs ++ [(n, c)]).any (fun f => f.1 == n) = true := by
      rw [List.any_append]
      simp
    have hw2 : writeFile (fs ++ [(n, c)]) n c =
        (fs ++ [(n, c)]).map (fun f => if f.1 == n then (n, c) else f) := by
      unfold writeFile
      rw [if_pos h2]
    rw [hw2, List.map_append]
    have hmap : fs.map (fun f => if f.1 == n then (n, c) else f) = fs := by
      conv_rhs => rw [← List.map_id fs]
      apply List.map_congr_left
      intro f hf
      rw [List.any_eq_false] at h'
      have hne : ¬(f.1 == n) = true := h' f hf
      have hfn : (f.1 == n) = false := by
        cases hb : (f.1 == n) with
        | false => rfl
        | true => exact absurd hb hne
      simp only [hfn, Bool.false_eq_true, if_false, id_eq]
    rw [hmap]
    simp

theorem root_content_no_tree (g : SignpostGenerator) (t t' : DirTree)
    (h : g.include_tree = false) :
    _generate_root_content g t = _generate_root_content g t' := by
  unfold _generate_root_content
  rw [h]
  simp

mutual
theorem walkCreate_idem (g : SignpostGenerator) (maxD : Nat) (rel : List String)
    (t : DirTree) :
    walkCreate g maxD rel (walkCreate g maxD rel t) = walkCreate g maxD rel t := by
  cases t with
  | node fs subs =>
    rw [walkCreate_node, walkCreate_node]
    split_ifs with hcond
    · rw [walkCreateSubs_idem]
    · rw [writeFile_writeFile_same, walkCreateSubs_idem]
theorem walkCreateSubs_idem (g : SignpostGenerator) (maxD : Nat) (rel : List String)
    (subs : Subs) :
    walkCreateSubs g maxD rel (walkCreateSubs g maxD rel subs) =
      walkCreateSubs g maxD rel subs := by
  cases subs with
  | nil => simp [walkCreateSubs]
  | cons n c rest =>
    simp only [walkCreateSubs]
    by_cases hk : keepDir n = true
    · simp only [hk, if_true]
      rw [walkCreate_idem, walkCreateSubs_idem]
    · have hk' : keepDir n = false := by
        cases hb : keepDir n with
        | false => rfl
        | true => exact absurd hb hk
      simp only [hk', Bool.false_eq_true, if_false]
      rw [walkCreateSubs_idem]
end

/-! ## remove (C7) -/

mutual
theorem removeTree_spec (t : DirTree) :
    (removeTree t).2 = signpostCount t ∧ signpostCount (removeTree t).1 = 0 := by
  cases t with
  | node fs subs =>
    have hsub := removeSubs_spec subs
    constructor
    · simp only [removeTree, signpostCount]
      rw [hsub.1]
    · simp only [removeTree, signpostCount]
      rw [hsub.2]
      have hff : (fs.filter (fun f => !(isSignpostName f.1))).filter
          (fun f => isSignpostName f.1) = [] := by
        rw [List.filter_filter]
        apply List.filter_eq_nil_iff.mpr
        intro a _
        cases hb : isSignpostName a.1 <;> simp [hb]
      rw [hff]
      rfl
theorem removeSubs_spec (subs : Subs) :
    (removeSubs subs).2 = signpostCountSubs subs ∧
      signpostCountSubs (removeSubs subs).1 = 0 := by
  cases subs with
  | nil => exact ⟨rfl, rfl⟩
  | cons n c rest =>
    have hc := removeTree_spec c
    have hr := removeSubs_spec rest
    constructor
    · simp only [removeSubs, signpostCountSubs]
      rw [hc.1, hr.1]
    · simp only [removeSubs, signpostCountSubs]
      rw [hc.2, hr.2]
end

/-! ## Pruned validation (C8) -/

mutual
theorem validateWalk_prune (root : String) (rel : List String) (t : DirTree) :
    validateWalk root rel (pruneExcluded t) = validateWalk root rel t := by
  cases t with
  | node fs subs =>
    simp only [pruneExcluded, validateWalk]
    rw [validateSubs_prune]
theorem validateSubs_prune (root : String) (rel : List String) (subs : Subs) :
    validateSubs root rel (pruneSubs subs) = validateSubs root rel subs := by
  cases subs with
  | nil => simp [pruneSubs]
  | cons n c rest =>
    by_cases hk : keepDir n = true
    · simp only [pruneSubs, hk, if_true]
      simp only [validateSubs, hk, if_true]
      rw [validateWalk_prune, validateSubs_prune]
    · have hk' : keepDir n = false := by
        cases hb : keepDir n with
        | false => rfl
        | true => exact absurd hb hk
      simp only [pruneSubs, hk', Bool.false_eq_true, if_false]
      rw [validateSubs_prune]
      simp only [validateSubs, hk', Bool.false_eq_true, if_false, List.nil_append]
end

theorem validationIssues_prune (root : String) (t : DirTree) :
    validationIssues root (pruneExcluded t) = validationIssues root t := by
  cases t with
  | node fs subs =>
    have hw : validateWalk root [] (.node fs (pruneSubs subs)) =
        validateWalk root [] (.node fs subs) := by
      have h := validateWalk_prune root [] (.node fs subs)
      simpa [pruneExcluded] using h
    unfold validationIssues
    simp only [pruneExcluded, DirTree.files]
    cases findFile fs ROOT_SIGNPOST with
    | none => rfl
    | some c => rw [hw]

theorem getDir?_walk_excluded (g : SignpostGenerator) (maxD : Nat) (p : List String) :
    ∀ (t : DirTree) (rel : List String) (n : String) (d : DirTree),
      p.all keepDir = true → keepDir n = false →
      getDir? t (p ++ [n]) = some d →
      getDir? (walkCreate g maxD rel t) (p ++ [n]) = some d := by
  induction p with
  | nil =>
    intro t rel n d _ hn hdir
    cases t with
    | node fs subs =>
      simp only [List.nil_append] at hdir ⊢
      rw [getDir?_node_cons_eq] at hdir
      rw [walkCreate_node, getDir?_node_cons_eq, findSub_walkCreateSubs]
      cases hfs : findSub subs n with
      | none => rw [hfs] at hdir; simp at hdir
      | some c =>
        rw [hfs] at hdir
        simp only [hn, Option.map_some', if_false]
        exact hdir
  | cons m rest ih =>
    intro t rel n d hp hn hdir
    simp only [List.all_cons, Bool.and_eq_true] at hp
    cases t with
    | node fs subs =>
      rw [List.cons_append] at hdir ⊢
      rw [getDir?_node_cons_eq] at hdir
      rw [walkCreate_node, getDir?_node_cons_eq, findSub_walkCreateSubs]
      cases hfs : findSub subs m with
      | none => rw [hfs] at hdir; simp at hdir
      | some c =>
        rw [hfs] at hdir
        simp only [Option.some_bind] at hdir
        simp only [hp.1, if_true, Option.map_some', Option.some_bind]
        exact ih c (rel ++ [m]) n d hp.2 hn hdir

theorem getDir?_create_excluded (g : SignpostGenerator) (t : DirTree) (maxD : Nat)
    (p : List String) (n : String) (d : DirTree)
    (hp : p.all keepDir = true) (hn : keepDir n = false)
    (hdir : getDir? t (p ++ [n]) = some d) :
    getDir? (create_signposts g t maxD) (p ++ [n]) = some d := by
  cases t with
  | node fs subs =>
    rw [create_eq]
    have h := getDir?_walk_excluded g maxD p (.node fs subs) [] n d hp hn hdir
    rw [walkCreate_node, if_pos (Or.inl rfl)] at h
    cases p with
    | nil =>
      simp only [List.nil_append] at h ⊢
      rw [getDir?_node_cons_eq] at h ⊢
      exact h
    | cons m rest =>
      simp only [List.cons_append] at h ⊢
      rw [getDir?_node_cons_eq] at h ⊢
      exact h

/-! ## Relative-name independence of the content check (C10) -/

theorem lineValueIssue_length (tag label expected rn1 rn2 : String)
    (content : List String) :
    (lineValueIssue tag label expected rn1 content).length =
      (lineValueIssue tag label expected rn2 content).length := by
  unfold lineValueIssue
  cases content.find? (fun l => pyStartsWith l tag) with
  | none => rfl
  | some l =>
    by_cases h : (rstripSlashes (pyStrip (splitAfterTag tag l)) == expected) = true
    · simp [h]
    · have h' : (rstripSlashes (pyStrip (splitAfterTag tag l)) == expected) = false := by
        cases hb : (rstripSlashes (pyStrip (splitAfterTag tag l)) == expected) with
        | false => rfl
        | true => exact absurd hb h
      simp [h']

theorem content_issues_length (content : List String) (root here rn1 rn2 : String) :
    (_validate_signpost_content content root here rn1).length =
      (_validate_signpost_content content root here rn2).length := by
  unfold _validate_signpost_content
  simp only [List.length_append]
  rw [lineValueIssue_length "ROOT:" "ROOT" root rn1 rn2 content,
    lineValueIssue_length "HERE:" "HERE" here rn1 rn2 content]
  have hreq : (requiredFieldIssues content rn1).length =
      (requiredFieldIssues content rn2).length := by
    unfold requiredFieldIssues
    simp [List.length_map]
  rw [hreq]

/-! ## Trailing-slash arithmetic (C6) -/

theorem dropWhile_replicate_append (p : Char → Bool) (c : Char) (hp : p c = true)
    (k : Nat) (l : List Char) :
    (List.replicate k c ++ l).dropWhile p = l.dropWhile p := by
  induction k with
  | zero => simp
  | succ k ih => simp [List.replicate_succ, List.dropWhile_cons, hp, ih]

theorem rstripSlashes_append_slashes (expected : String) (k : Nat)
    (hexp : goodPathChars expected.data = true) :
    rstripSlashes (expected ++ slashes k) = expected := by
  obtain ⟨hne, _, hlast, _⟩ := goodPath_parts hexp
  apply strExt
  show ((expected ++ slashes k).data.reverse.dropWhile (fun c => c == '/')).reverse =
    expected.data
  rw [dataAppend]
  show ((expected.data ++ List.replicate k '/').reverse.dropWhile
    (fun c => c == '/')).reverse = expected.data
  rw [List.reverse_append, List.reverse_replicate]
  rw [dropWhile_replicate_append _ '/' (by decide)]
  have hstop : expected.data.reverse.dropWhile (fun c => c == '/') =
      expected.data.reverse := by
    cases hrev : expected.data.reverse with
    | nil => simp
    | cons d rs =>
      have hd : (d == '/') = false := by
        rw [hrev] at hlast
        simp only [List.headD_cons] at hlast
        simpa [beq_eq_false_iff_ne] using hlast
      simp [List.dropWhile_cons, hd]
  rw [hstop, List.reverse_reverse]

theorem exists_slashes_of_rstrip {s expected : String}
    (h : rstripSlashes s = expected) : ∃ k, s = expected ++ slashes k := by
  refine ⟨(s.data.reverse.takeWhile (fun c => c == '/')).length, ?_⟩
  apply strExt
  rw [dataAppend, ← h]
  show s.data = (s.data.reverse.dropWhile (fun c => c == '/')).reverse ++
    (slashes (s.data.reverse.takeWhile (fun c => c == '/')).length).data
  have htw : s.data.reverse.takeWhile (fun c => c == '/') =
      List.replicate (s.data.reverse.takeWhile (fun c => c == '/')).length '/' := by
    apply List.eq_replicate_of_mem
    intro b hb
    have := List.mem_takeWhile_imp hb
    simpa using this
  show s.data = _ ++ List.replicate _ '/'
  conv_lhs => rw [← List.reverse_reverse s.data,
    ← List.takeWhile_append_dropWhile (fun c => c == '/') s.data.reverse]
  rw [List.reverse_append]
  congr 1
  rw [← List.reverse_replicate, ← htw]

/-! # Claim theorems -/

/-- C1: for every valid directory tree (well-formed resolved root path and
directory names, no pre-existing signpost file anywhere) and every max_depth
at least the depth of the tree, create_signposts followed by
validate_signposts on the same root returns true. -/
theorem c1_create_then_validate (g : SignpostGenerator) (t : DirTree) (maxD : Nat)
    (hr : goodPathChars g.root_path.data = true)
    (hg : goodTreeB t = true) (hc : cleanTreeB t = true)
    (hd : treeDepth t ≤ maxD) :
    validate_signposts g.root_path (create_signposts g t maxD) = true := by
  cases t with
  | node fs subs =>
    simp only [goodTreeB] at hg
    simp only [cleanTreeB, Bool.and_eq_true] at hc
    simp only [treeDepth] at hd
    rw [create_eq]
    rw [validate_eq_of_found (by
      simp only [DirTree.files]
      exact findFile_writeFile _ _ _)]
    rw [root_marker_content_ok g _ _ hr]
    simp only [validateWalk]
    rw [cv_subs g maxD subs [] hr hg hc.2 (by simp) (by simpa using hd)]
    simp

/-- Witness for C1 at a concrete configuration and tree. -/
theorem c1_witness :
    validate_signposts "/r" (create_signposts gW tSrcModels 10) = true :=
  c1_create_then_validate gW tSrcModels 10 (by decide) (by decide) (by decide)
    (by decide)

/-- C2 counterexample: the role table maps "models" to "Data models", so the
marker created in root/src/models carries "ROLE: Data models" and not the
capitalized fallback "ROLE: Models directory" required by the claim. -/
theorem c2_counterexample :
    (getDir? (create_signposts gW tSrcModels 10) ["src", "models"]).map
        (fun d => findFile d.files "_CARDINAL_SRC_MODELS.txt") =
      some (some ["ROOT: /r/", "HERE: /r/src/models/", "ROLE: Data models"]) ∧
    _infer_directory_role "models" ≠ "Models directory" := by
  constructor
  · decide
  · decide

/-- C2 (amended): for a tree containing root/src/models (kept by the walk,
max_depth at least 2), create_signposts produces the marker
root/src/models/_CARDINAL_SRC_MODELS.txt whose ROLE line is
"ROLE: Data models" — the name "models" has a role-table entry, so the
capitalized-name fallback is not used. -/
theorem c2_models_role (g : SignpostGenerator) (t : DirTree) (maxD : Nat)
    (d : DirTree) (hmax : 2 ≤ maxD)
    (hdir : getDir? t ["src", "models"] = some d) :
    (getDir? (create_signposts g t maxD) ["src", "models"]).map
        (fun d2 => findFile d2.files "_CARDINAL_SRC_MODELS.txt") =
      some (some (_generate_directory_content g
        (pathStr g.root_path ["src", "models"]) "Data models")) ∧
    _infer_directory_role "models" = "Data models" := by
  refine ⟨?_, by decide⟩
  rw [getDir?_create g t maxD "src" ["models"] (by decide), hdir]
  simp only [Option.map_some']
  cases d with
  | node dfs dsubs =>
    rw [walkCreate_node]
    rw [if_neg (by
      push_neg
      exact ⟨by decide, by simpa using hmax⟩)]
    simp only [DirTree.files]
    rw [show signpostFilename ["src", "models"] = "_CARDINAL_SRC_MODELS.txt" from by
      decide]
    rw [show _infer_directory_role (["src", "models"].getLastD "") = "Data models" from by
      decide]
    rw [findFile_writeFile]

/-- Witness for C2 (amended) at a concrete tree. -/
theorem c2_witness :
    (getDir? (create_signposts gW tSrcModels 10) ["src", "models"]).map
        (fun d2 => findFile d2.files "_CARDINAL_SRC_MODELS.txt") =
      some (some (_generate_directory_content gW
        (pathStr gW.root_path ["src", "models"]) "Data models")) ∧
    _infer_directory_role "models" = "Data models" :=
  c2_models_role gW tSrcModels 10 (.node [] .nil) (by omega) (by rfl)

/-- C3 counterexample: with include_tree enabled, running create twice on an
unchanged tree rewrites the root marker with different bytes — the second
second snapshot lists the marker file created by the first run. -/
theorem c3_counterexample :
    findFile (create_signposts gTreeOn (create_signposts gTreeOn tEmpty 10) 10).files
        ROOT_SIGNPOST ≠
      findFile (create_signposts gTreeOn tEmpty 10).files ROOT_SIGNPOST := by
  decide

/-- C3 (amended): when include_tree is false (any other configuration fields
arbitrary), a second create_signposts run reproduces the tree of the first run
exactly, so every marker including the root marker is byte-identical; with
include_tree = true the root marker differs because the second snapshot
includes the marker files of the first run. -/
theorem c3_idempotent_no_tree (g : SignpostGenerator) (t : DirTree) (maxD : Nat)
    (h : g.include_tree = false) :
    create_signposts g (create_signposts g t maxD) maxD =
      create_signposts g t maxD := by
  cases t with
  | node fs subs =>
    rw [create_eq, create_eq]
    rw [root_content_no_tree g
      (DirTree.node
        (writeFile fs ROOT_SIGNPOST (_generate_root_content g (DirTree.node fs subs)))
        (walkCreateSubs g maxD [] subs))
      (DirTree.node fs subs) h]
    rw [writeFile_writeFile_same, walkCreateSubs_idem]

/-- Witness for C3 (amended) at a concrete configuration. -/
theorem c3_witness :
    create_signposts gW (create_signposts gW tSrc 10) 10 =
      create_signposts gW tSrc 10 :=
  c3_idempotent_no_tree gW tSrc 10 rfl

/-- C4: the marker created for a directory at non-empty kept relative path
p1/…/pn (within the depth bound) is the file named exactly "_CARDINAL_"
followed by the upper-cased segments joined with "_" followed by ".txt", and
the root marker is the fixed literal _CARDINAL_ROOT.txt holding the root
content. -/
theorem c4_marker_filenames (g : SignpostGenerator) (t : DirTree) (maxD : Nat)
    (n : String) (p : List String) (d : DirTree)
    (hkeep : (n :: p).all keepDir = true) (hlen : (n :: p).length ≤ maxD)
    (hdir : getDir? t (n :: p) = some d) :
    (getDir? (create_signposts g t maxD) (n :: p)).map (fun d2 =>
        findFile d2.files
          ("_CARDINAL_" ++ String.intercalate "_" ((n :: p).map pyUpper) ++ ".txt")) =
      some (some (_generate_directory_content g (pathStr g.root_path (n :: p))
        (_infer_directory_role ((n :: p).getLastD "")))) ∧
    findFile (create_signposts g t maxD).files ROOT_SIGNPOST =
      some (_generate_root_content g t) := by
  constructor
  · rw [getDir?_create g t maxD n p hkeep, hdir]
    simp only [Option.map_some']
    cases d with
    | node dfs dsubs =>
      rw [walkCreate_node]
      rw [if_neg (by
        push_neg
        exact ⟨by simp, by omega⟩)]
      simp only [DirTree.files]
      rw [show ("_CARDINAL_" ++ String.intercalate "_" ((n :: p).map pyUpper) ++ ".txt") =
        signpostFilename (n :: p) from rfl]
      rw [findFile_writeFile]
  · rw [create_files]
    exact findFile_writeFile _ _ _

/-- Witness for C4 at the src/models example from the spec. -/
theorem c4_witness :
    (getDir? (create_signposts gW tSrcModels 10) ["src", "models"]).map (fun d2 =>
        findFile d2.files
          ("_CARDINAL_" ++ String.intercalate "_" (["src", "models"].map pyUpper) ++ ".txt")) =
      some (some (_generate_directory_content gW (pathStr gW.root_path ["src", "models"])
        (_infer_directory_role (["src", "models"].getLastD "")))) ∧
    findFile (create_signposts gW tSrcModels 10).files ROOT_SIGNPOST =
      some (_generate_root_content gW tSrcModels) :=
  c4_marker_filenames gW tSrcModels 10 "src" ["models"] (.node [] .nil)
    (by decide) (by decide) (by rfl)

/-- C5: during validation, a non-root directory with zero signpost-named
files contributes exactly the "missing" issue (its content check is
skipped); one with more than one contributes the "multiple" issue followed
by the content check of the first match in enumeration order; and the
project is valid iff the collected issue list is empty. -/
theorem c5_validator_walk (root : String) (fs fs2 : Files) (t : DirTree)
    (rel : List String) (f : String × Content) (rest : List (String × Content))
    (hrel : rel ≠ [])
    (h0 : signpostFiles fs = [])
    (h2 : signpostFiles fs2 = f :: rest) (hrest : rest ≠ []) :
    perDirIssues root fs rel = ["Missing signpost in: " ++ relStr rel] ∧
    perDirIssues root fs2 rel =
      ("Multiple signposts in: " ++ relStr rel) ::
        _validate_signpost_content f.2 root (pathStr root rel)
          (relStr rel ++ "/" ++ f.1) ∧
    (validate_signposts root t = true ↔ validationIssues root t = []) := by
  refine ⟨?_, ?_, ?_⟩
  · unfold perDirIssues
    rw [h0]
  · unfold perDirIssues
    rw [h2]
    have he : rest.isEmpty = false := by
      cases rest with
      | nil => exact absurd rfl hrest
      | cons a b => rfl
    simp [he]
  · unfold validate_signposts validationIssues
    cases findFile t.files ROOT_SIGNPOST with
    | none => simp
    | some c => simp [List.isEmpty_iff]

/-- Witness for C5 at concrete directories (one empty, one with two
signposts) and a concrete tree. -/
theorem c5_witness :
    perDirIssues "/r" [("a.txt", ["x"])] ["src"] =
      ["Missing signpost in: " ++ relStr ["src"]] ∧
    perDirIssues "/r" [("_CARDINAL_A.txt", ["y"]), ("_CARDINAL_B.txt", ["z"])] ["src"] =
      ("Multiple signposts in: " ++ relStr ["src"]) ::
        _validate_signpost_content ["y"] "/r" (pathStr "/r" ["src"])
          (relStr ["src"] ++ "/" ++ "_CARDINAL_A.txt") ∧
    (validate_signposts "/r" tEmpty = true ↔ validationIssues "/r" tEmpty = []) :=
  c5_validator_walk "/r" [("a.txt", ["x"])]
    [("_CARDINAL_A.txt", ["y"]), ("_CARDINAL_B.txt", ["z"])] tEmpty ["src"]
    ("_CARDINAL_A.txt", ["y"]) [("_CARDINAL_B.txt", ["z"])]
    (by decide) (by decide) (by decide) (by decide)

/-- C6 counterexample: a ROOT value with two trailing slashes is accepted by
the content check (the source strips every trailing slash), although the
claim says anything beyond a single optional trailing slash is an issue. -/
theorem c6_counterexample :
    _validate_signpost_content ["ROOT: /r//", "HERE: /r/", "ROLE: x"] "/r" "/r" "rs" =
      [] := by
  decide

/-- C6 (amended): the per-line value check accepts a field value exactly when
the value, after trimming surrounding whitespace and removing every trailing
slash, equals the expected path — i.e. any number of trailing slashes (and
surrounding whitespace) is ignored, not just a single one. -/
theorem c6_trailing_slashes (tag label expected relName v : String)
    (htag : ':' ∈ tag.data) (hv : ':' ∉ v.data)
    (hexp : goodPathChars expected.data = true) :
    (lineValueIssue tag label expected relName [tag ++ v] = [] ↔
      ∃ k : Nat, pyStrip v = expected ++ slashes k) := by
  have hstart : pyStartsWith (tag ++ v) tag = true :=
    startsWith_tag_pre tag tag v [] (by simp)
  have hsplit : splitAfterTag tag (tag ++ v) = v := by
    apply strExt
    show takeUntilTag tag.data ((tag ++ v).data.drop tag.data.length) = v.data
    rw [dataAppend, List.drop_left]
    exact takeUntilTag_eq_self htag hv
  unfold lineValueIssue
  simp only [List.find?, hstart]
  rw [hsplit]
  constructor
  · intro h
    by_cases hb : (rstripSlashes (pyStrip v) == expected) = true
    · exact exists_slashes_of_rstrip (by simpa using hb)
    · have hb' : (rstripSlashes (pyStrip v) == expected) = false := by
        cases hx : (rstripSlashes (pyStrip v) == expected) with
        | false => rfl
        | true => exact absurd hx hb
      rw [hb'] at h
      simp at h
  · intro h
    obtain ⟨k, hk⟩ := h
    have : rstripSlashes (pyStrip v) = expected := by
      rw [hk]
      exact rstripSlashes_append_slashes expected k hexp
    simp [this]

/-- Witness for C6 (amended): a value with surrounding whitespace and two
trailing slashes is accepted for expected path /r. -/
theorem c6_witness :
    lineValueIssue "ROOT:" "ROOT" "/r" "rs" ["ROOT:" ++ " /r// "] = [] ↔
      ∃ k : Nat, pyStrip " /r// " = "/r" ++ slashes k :=
  c6_trailing_slashes "ROOT:" "ROOT" "/r" "rs" " /r// "
    (by decide) (by decide) (by decide)

/-- C7: remove deletes every signpost-named file anywhere under the root
(excluded directories included, since its walk does not prune), returns the
number of files deleted, and a second remove with no intervening creation
returns 0. -/
theorem c7_remove_complete_idempotent (t : DirTree) :
    (removeTree t).2 = signpostCount t ∧
    signpostCount (removeTree t).1 = 0 ∧
    (removeTree (removeTree t).1).2 = 0 := by
  refine ⟨(removeTree_spec t).1, (removeTree_spec t).2, ?_⟩
  rw [(removeTree_spec (removeTree t).1).1]
  exact (removeTree_spec t).2

/-- C8 counterexample: remove() does traverse excluded directories — on a
tree whose only signpost-named file sits inside .git, remove deletes it and
returns 1, so the claim that no operation visits such directories is false. -/
theorem c8_counterexample :
    (removeTree tGit).2 = 1 ∧ signpostCount (removeTree tGit).1 = 0 ∧
      signpostCount tGit = 1 := by
  refine ⟨by decide, by decide, by decide⟩

/-- C8 (amended): a directory whose name starts with "." or is one of the
excluded literals is never entered by create_signposts (its whole subtree is
left unchanged, so nothing inside receives a marker) and is invisible to
validate_signposts (dropping every excluded subtree does not change the
issue list); remove(), however, does traverse excluded directories. -/
theorem c8_excluded_create_validate (g : SignpostGenerator) (t : DirTree)
    (maxD : Nat) (root : String) (p : List String) (n : String) (d : DirTree)
    (hp : p.all keepDir = true) (hn : keepDir n = false)
    (hdir : getDir? t (p ++ [n]) = some d) :
    getDir? (create_signposts g t maxD) (p ++ [n]) = some d ∧
    validationIssues root (pruneExcluded t) = validationIssues root t :=
  ⟨getDir?_create_excluded g t maxD p n d hp hn hdir,
    validationIssues_prune root t⟩

/-- Witness for C8 (amended): the .git subtree under src is untouched by
create and invisible to validation. -/
theorem c8_witness :
    getDir? (create_signposts gW tSrcGit 10) (["src"] ++ [".git"]) =
      some (.node [("a.txt", ["x"])] .nil) ∧
    validationIssues "/r" (pruneExcluded tSrcGit) = validationIssues "/r" tSrcGit :=
  c8_excluded_create_validate gW tSrcGit 10 "/r" ["src"] ".git"
    (.node [("a.txt", ["x"])] .nil) (by decide) (by decide) (by rfl)

/-- C9: generator construction checks root-path existence immediately:
construction succeeds on an existing root, fails with the configuration
error on a missing one, and in both cases the filesystem is returned
unchanged (no file created or deleted). -/
theorem c9_init_checks_existence (world : DirTree) (p : List String)
    (root_path format : String) (ir it : Bool) (cr : List (String × String)) :
    (generatorInit world p root_path format ir it cr).1 = world ∧
    ((getDir? world p).isSome = true →
      (generatorInit world p root_path format ir it cr).2 =
        Except.ok ⟨root_path, format, ir, it, cr⟩) ∧
    (getDir? world p = none →
      (generatorInit world p root_path format ir it cr).2 =
        Except.error ("Path does not exist: " ++ root_path)) := by
  refine ⟨rfl, ?_, ?_⟩
  · intro h
    simp [generatorInit, h]
  · intro h
    simp [generatorInit, h]

/-- Witness for C9: success on an existing subdirectory, failure on a
missing one, with the world unchanged. -/
theorem c9_witness :
    (generatorInit tSrc ["src"] "/r/src" "txt" true false []).1 = tSrc ∧
    (generatorInit tSrc ["src"] "/r/src" "txt" true false []).2 =
      Except.ok ⟨"/r/src", "txt", true, false, []⟩ ∧
    (generatorInit tSrc ["nope"] "/r/nope" "txt" true false []).2 =
      Except.error ("Path does not exist: " ++ "/r/nope") := by
  have h1 := c9_init_checks_existence tSrc ["src"] "/r/src" "txt" true false []
  have h2 := c9_init_checks_existence tSrc ["nope"] "/r/nope" "txt" true false []
  exact ⟨h1.1, h1.2.1 (by rfl), h2.2.2 (by rfl)⟩

/-- C10: the validator never compares the filename of a signpost with the
filename-derivation rule: a directory holding a single file with the
_CARDINAL_/.txt pattern — any middle part, e.g. one encoding a stale path —
passes exactly when the file content passes the field check, and two
differently-named pattern files are accepted or rejected identically. -/
theorem c10_filename_not_checked (root : String) (rel : List String)
    (n1 n2 : String) (c : Content)
    (h1 : isSignpostName n1 = true) (h2 : isSignpostName n2 = true) :
    (perDirIssues root [(n1, c)] rel = [] ↔
      _validate_signpost_content c root (pathStr root rel)
        (relStr rel ++ "/" ++ n1) = []) ∧
    (perDirIssues root [(n1, c)] rel = [] ↔ perDirIssues root [(n2, c)] rel = []) := by
  have hp : ∀ n : String, isSignpostName n = true →
      perDirIssues root [(n, c)] rel =
        _validate_signpost_content c root (pathStr root rel)
          (relStr rel ++ "/" ++ n) := by
    intro n hn
    have hsf : signpostFiles [(n, c)] = [(n, c)] := by
      simp [signpostFiles, hn]
    unfold perDirIssues
    rw [hsf]
    simp
  constructor
  · rw [hp n1 h1]
  · rw [hp n1 h1, hp n2 h2]
    rw [← List.length_eq_zero, ← List.length_eq_zero]
    rw [content_issues_length c root (pathStr root rel)
      (relStr rel ++ "/" ++ n1) (relStr rel ++ "/" ++ n2)]

/-- Witness for C10: a stale-named marker (_CARDINAL_OLD.txt) inside src is
accepted iff its content passes, and behaves exactly like the derived name. -/
theorem c10_witness :
    (perDirIssues "/r" [("_CARDINAL_OLD.txt", ["ROOT: /r/", "HERE: /r/src/", "ROLE: x"])]
        ["src"] = [] ↔
      _validate_signpost_content ["ROOT: /r/", "HERE: /r/src/", "ROLE: x"] "/r"
        (pathStr "/r" ["src"]) (relStr ["src"] ++ "/" ++ "_CARDINAL_OLD.txt") = []) ∧
    (perDirIssues "/r" [("_CARDINAL_OLD.txt", ["ROOT: /r/", "HERE: /r/src/", "ROLE: x"])]
        ["src"] = [] ↔
      perDirIssues "/r" [("_CARDINAL_SRC.txt", ["ROOT: /r/", "HERE: /r/src/", "ROLE: x"])]
        ["src"] = []) :=
  c10_filename_not_checked "/r" ["src"] "_CARDINAL_OLD.txt" "_CARDINAL_SRC.txt"
    ["ROOT: /r/", "HERE: /r/src/", "ROLE: x"] (by decide) (by decide)

end TacWrite
